import Mathlib

/-!
Verification of the playbookd procedural-memory library (github.com/lucas-stellet/playbookd).

Shallow embedding conventions:
* Go `float64` fields and thresholds are modelled as exact rationals (`Rat`); the one
  place where genuine real arithmetic happens (`WilsonConfidence`, which calls
  `math.Sqrt`) is modelled over `ℝ` with `Real.sqrt`.
* Go `time.Time` values and `time.Duration` values are modelled as `Int` (nanosecond
  ticks, with `0` playing the role of Go's zero time, as tested by `IsZero`).
* Go `int` counters that are only ever incremented from zero (`SuccessCount`,
  `FailureCount`) are modelled as `Nat`; `Version` keeps the full `Int` range.
* The file store (`store.go`) keeps one JSON document per entity under
  `playbooks/<id>.json` and `executions/<playbookID>/<execID>.json`; it is modelled as
  association lists keyed by id.  I/O errors other than not-found are not modelled.
* Ambient effects of the manager (`uuid.New`, `time.Now`, the embedding provider and
  the float64 Wilson value written into the stored document) are passed explicitly in
  a `ManagerCtx` record.
-/

namespace Playbookd

/-- Lifecycle status of a playbook (`Status` in playbook.go: draft/active/deprecated/archived).
`manager.go` of the snapshot also manipulates a boolean `Archived` flag; following the
design note on dual lifecycle representations, the flag is represented here by the
terminal status value `archived`. -/
inductive Status where
  | draft
  | active
  | deprecated
  | archived
deriving DecidableEq, Repr

/-- Result of an execution (`Outcome` in playbook.go). Go's `OutcomePartial` is named
`partialSuccess` here because its Go name is a Lean keyword; RecordExecution counts it
as a full success for stats. -/
inductive Outcome where
  | success
  | partialSuccess
  | failure
deriving DecidableEq, Repr

/-- Accumulated wisdom from executions (`Lesson` in playbook.go). -/
structure Lesson where
  id : String
  content : String
  learnedFrom : String
  learnedAt : Int
  applies : String
  confidence : Rat
deriving DecidableEq, Repr

/-- A single action within a playbook (`Step` in playbook.go). The untyped JSON field
`ToolArgs map[string]any` is inert for every verified property and is left out. -/
structure Step where
  order : Int
  action : String
  tool : String
  expected : String
  fallback : String
  notes : String
  optional : Bool
deriving DecidableEq, Repr

/-- An agent's analysis of an execution (`Reflection` in playbook.go). -/
structure Reflection where
  whatWorked : List String
  whatFailed : List String
  improvements : List String
  shouldUpdate : Bool
deriving DecidableEq, Repr

/-- Outcome of a single step (`StepResult` in playbook.go). -/
structure StepResult where
  stepOrder : Int
  outcome : Outcome
  output : String
  error : String
  duration : String
deriving DecidableEq, Repr

/-- A learned procedure (`Playbook` in playbook.go). -/
structure Playbook where
  id : String
  name : String
  slug : String
  description : String
  tags : List String
  category : String
  steps : List Step
  version : Int
  successCount : Nat
  failureCount : Nat
  successRate : Rat
  confidence : Rat
  status : Status
  lessons : List Lesson
  embedding : List Rat
  createdAt : Int
  updatedAt : Int
  lastUsedAt : Int
  createdBy : String
deriving DecidableEq, Repr

/-- A single run of a playbook (`ExecutionRecord` in playbook.go). -/
structure ExecutionRecord where
  id : String
  playbookID : String
  playbookVer : Int
  agentID : String
  startedAt : Int
  completedAt : Int
  outcome : Outcome
  stepResults : List StepResult
  taskContext : String
  reflection : Option Reflection
deriving DecidableEq, Repr

/-- Listing filter (`ListFilter`). The snapshot carries two variants: playbook.go
declares a `Status` field, while the store's `matchesFilter` and `Prune` consume an
`IncludeArchived` flag; both are kept. -/
structure ListFilter where
  status : Option Status
  category : String
  tags : List String
  limit : Int
  includeArchived : Bool
deriving DecidableEq, Repr

/-- z-score for the 95% confidence interval (`z95` in playbook.go). -/
noncomputable def z95 : ℝ := 1.96

/-- `WilsonConfidence` (playbook.go): lower bound of the Wilson score interval at 95% CI.
Translated verbatim over `ℝ`; the two counters are the non-negative Go ints. -/
noncomputable def WilsonConfidence (successes failures : ℕ) : ℝ :=
  let n : ℝ := (successes : ℝ) + (failures : ℝ)
  if n = 0 then 0
  else
    let p : ℝ := (successes : ℝ) / n
    let z : ℝ := z95
    let denominator : ℝ := 1 + z * z / n
    let center : ℝ := p + z * z / (2 * n)
    let spread : ℝ := z * Real.sqrt (p * (1 - p) / n + z * z / (4 * (n * n)))
    (center - spread) / denominator

/-- `(*Playbook).UpdateStats` (playbook.go): recompute `successRate` and `confidence`
from the counters.  The rate is exact in `Rat`; the float64 Wilson value written into
the document is threaded through the opaque parameter `wilson` (no verified claim
depends on the numeric confidence value; the formula itself is `WilsonConfidence`). -/
def Playbook.UpdateStats (wilson : Nat → Nat → Rat) (pb : Playbook) : Playbook :=
  let total := pb.successCount + pb.failureCount
  if total = 0 then
    { pb with successRate := 0, confidence := 0 }
  else
    { pb with
        successRate := (pb.successCount : Rat) / (total : Rat)
        confidence := wilson pb.successCount pb.failureCount }

/-- `(*Playbook).ShouldPromote` (playbook.go): a draft playbook with 3+ successes
should be promoted to active. -/
def Playbook.ShouldPromote (pb : Playbook) : Bool :=
  pb.status == Status.draft && pb.successCount ≥ 3

/-- `(*Playbook).ShouldDeprecate` (playbook.go): 5+ total executions and a success
rate strictly below the failure threshold. -/
def Playbook.ShouldDeprecate (pb : Playbook) (failureThreshold : Rat) : Bool :=
  let total := pb.successCount + pb.failureCount
  if total < 5 then false
  else pb.successRate < failureThreshold

/-! ## File store (store.go, `FileStore`)

One JSON document per entity: `playbooks/<id>.json` and `executions/<playbookID>/<execID>.json`.
The two directories are association lists keyed by id; a `trace` component logs every
store/index invocation so that "operation X was never called" is a provable statement. -/

/-- Store/index invocations, in call order.  Instrumentation of the model; the Go store
has no such log. -/
inductive StoreEvent where
  | savePlaybook (id : String)
  | saveExecution (playbookID execID : String)
  | deletePlaybook (id : String)
  | indexDoc (id : String)
  | removeDoc (id : String)
deriving DecidableEq, Repr

/-- Writing `<k>.json`: overwrite the entry for key `k` if present, else create it. -/
def setKey {α : Type} (l : List (String × α)) (k : String) (v : α) : List (String × α) :=
  if (l.lookup k).isSome then
    l.map (fun e => if e.1 == k then (k, v) else e)
  else
    l ++ [(k, v)]

/-- State of the data directory plus the Bleve index (ids of indexed documents) and the
instrumentation trace. -/
structure MState where
  playbooks : List (String × Playbook)
  executions : List (String × List ExecutionRecord)
  indexDocs : List String
  trace : List StoreEvent
deriving DecidableEq, Repr

def MState.empty : MState := { playbooks := [], executions := [], indexDocs := [], trace := [] }

/-- Errors surfaced by the modelled operations: the store's `ErrNotFound` wrapper and a
failure of the embedding provider. -/
inductive PBError where
  | notFound (id : String)
  | embedFailed (msg : String)
deriving DecidableEq, Repr

/-- `FileStore.SavePlaybook` (store.go): atomic write of `playbooks/<id>.json`. -/
def MState.savePlaybook (st : MState) (pb : Playbook) : MState :=
  { st with
      playbooks := setKey st.playbooks pb.id pb
      trace := st.trace ++ [StoreEvent.savePlaybook pb.id] }

/-- `FileStore.GetPlaybook` (store.go): read `playbooks/<id>.json`, `NotFound` if missing. -/
def MState.getPlaybook (st : MState) (id : String) : Except PBError Playbook :=
  match st.playbooks.lookup id with
  | some pb => .ok pb
  | none => .error (.notFound id)

/-- `FileStore.DeletePlaybook` (store.go): remove `playbooks/<id>.json` (a not-exist
error from `os.Remove` is ignored) and the whole `executions/<id>/` directory
(`os.RemoveAll`, which also succeeds on a missing directory).  It never reports a
missing playbook. -/
def MState.deletePlaybook (st : MState) (id : String) : MState :=
  { st with
      playbooks := st.playbooks.filter (fun e => e.1 != id)
      executions := st.executions.filter (fun e => e.1 != id)
      trace := st.trace ++ [StoreEvent.deletePlaybook id] }

/-- `FileStore.SaveExecution` (store.go): `MkdirAll` on the playbook's execution
directory, then atomic write of `<execID>.json`. -/
def MState.saveExecution (st : MState) (r : ExecutionRecord) : MState :=
  let dir := (st.executions.lookup r.playbookID).getD []
  let dir := if (dir.find? (fun e => e.id == r.id)).isSome then
      dir.map (fun e => if e.id == r.id then r else e)
    else
      dir ++ [r]
  { st with
      executions := setKey st.executions r.playbookID dir
      trace := st.trace ++ [StoreEvent.saveExecution r.playbookID r.id] }

/-- `FileStore.ListExecutions` (store.go): empty when the directory does not exist;
otherwise sorted by `StartedAt` descending (newest first) and truncated to `limit`
when `limit > 0`. -/
def MState.listExecutions (st : MState) (playbookID : String) (limit : Int) : List ExecutionRecord :=
  match st.executions.lookup playbookID with
  | none => []
  | some records =>
    let sorted := records.mergeSort (fun a b => b.startedAt ≤ a.startedAt)
    if 0 < limit then sorted.take limit.toNat else sorted

/-- `matchesFilter` (store.go), with the boolean `Archived` flag read as the terminal
status value. -/
def matchesFilter (pb : Playbook) (filter : ListFilter) : Bool :=
  if !filter.includeArchived && pb.status == Status.archived then false
  else if filter.category != "" && pb.category != filter.category then false
  else filter.tags.all (fun t => pb.tags.contains t)

/-- `FileStore.ListPlaybooks` (store.go): filter, sort by confidence descending,
truncate to `limit` when positive. -/
def MState.listPlaybooks (st : MState) (filter : ListFilter) : List Playbook :=
  let pbs := (st.playbooks.map (·.2)).filter (fun pb => matchesFilter pb filter)
  let sorted := pbs.mergeSort (fun a b => b.confidence ≤ a.confidence)
  if 0 < filter.limit then sorted.take filter.limit.toNat else sorted

/-- `BleveIndexer.Index` (bleve.go): upsert the document for `pb.id`. -/
def MState.indexDoc (st : MState) (pb : Playbook) : MState :=
  { st with
      indexDocs := if st.indexDocs.contains pb.id then st.indexDocs else st.indexDocs ++ [pb.id]
      trace := st.trace ++ [StoreEvent.indexDoc pb.id] }

/-- `BleveIndexer.Remove` (bleve.go): delete the document; Bleve's delete is a no-op
without error for an unknown id. -/
def MState.removeDoc (st : MState) (id : String) : MState :=
  { st with
      indexDocs := st.indexDocs.filter (fun d => d != id)
      trace := st.trace ++ [StoreEvent.removeDoc id] }

/-! ## Search types (search.go, contrastive.go) -/

/-- `SearchQuery` (search.go).  `Mode` is the raw mode string; `ConfidenceWeight` lives
on the query in manager.go's `Search`. -/
structure SearchQuery where
  text : String
  mode : String
  category : String
  status : Option Status
  minScore : Rat
  limit : Int
  embedding : List Rat
  confidenceWeight : Rat
deriving DecidableEq, Repr

/-- `SearchResult` (search.go): a hit hydrated with its playbook and an opaque score. -/
structure SearchResult where
  playbook : Playbook
  score : Rat
deriving DecidableEq, Repr

/-- `DefaultSearchLimit` (search.go). -/
def DefaultSearchLimit : Int := 5

/-- `DefaultMinScore` (search.go). -/
def DefaultMinScore : Rat := 1/10

/-- `DefaultPositiveMinConfidence` (contrastive.go). -/
def DefaultPositiveMinConfidence : Rat := 1/2

/-- `DefaultNegativeMaxConfidence` (contrastive.go). -/
def DefaultNegativeMaxConfidence : Rat := 3/10

/-- `ContrastiveQuery` (contrastive.go). -/
structure ContrastiveQuery where
  searchQuery : SearchQuery
  positiveMinConfidence : Rat
  negativeMaxConfidence : Rat
  includeNeutral : Bool
deriving DecidableEq, Repr

/-- `ContrastiveResults` (contrastive.go). -/
structure ContrastiveResults where
  positive : List SearchResult
  negative : List SearchResult
  neutral : List SearchResult
  query : String
deriving DecidableEq, Repr

/-! ## Embedding helpers (embed/embed.go) and slugify (manager.go) -/

/-- `embed.TextForPlaybook` (embed/embed.go): join the non-empty parts with newlines. -/
def TextForPlaybook (name description : String) (tags steps : List String) : String :=
  let parts : List String :=
    (if name != "" then [name] else []) ++
    (if description != "" then [description] else []) ++
    (if !tags.isEmpty then ["tags: " ++ String.intercalate ", " tags] else []) ++
    (if !steps.isEmpty then ["steps: " ++ String.intercalate "; " steps] else [])
  String.intercalate "\n" parts

/-- A character the slug regexp `[^a-z0-9]+` keeps. -/
def isSlugChar (c : Char) : Bool :=
  ('a' ≤ c && c ≤ 'z') || ('0' ≤ c && c ≤ '9')

/-- Collapse consecutive dashes, as the regexp replaces each maximal run of
non-slug characters by a single dash. -/
def collapseDashes : List Char → List Char
  | [] => []
  | c :: rest =>
    match collapseDashes rest with
    | [] => [c]
    | d :: tl => if c == '-' && d == '-' then d :: tl else c :: d :: tl

/-- `slugify` (manager.go): trim space, lower-case, replace runs of `[^a-z0-9]+` by
`-`, trim dashes. -/
def slugify (name : String) : String :=
  let trimmed := (name.toList.dropWhile Char.isWhitespace).reverse.dropWhile Char.isWhitespace |>.reverse
  let lowered := trimmed.map Char.toLower
  let dashed := lowered.map (fun c => if isSlugChar c then c else '-')
  let collapsed := collapseDashes dashed
  let slug := (collapsed.dropWhile (· == '-')).reverse.dropWhile (· == '-') |>.reverse
  String.mk slug

/-! ## The manager (manager.go)

`PlaybookManager` methods act on an `MState`.  Ambient inputs — the configured options,
the embedding provider, `uuid.New()`, `time.Now()` and the float64 Wilson confidence
written by `UpdateStats` — are fields of a `ManagerCtx`. -/

/-- Manager configuration and ambient effects.  `maxAge`/`minConfidence`/`autoReflect`
mirror `ManagerConfig`; `embedFn` is the `EmbeddingProvider`; `uuid n` is the n-th
fresh id an operation draws; `now` is `time.Now()`; `wilson` is the float64
`WilsonConfidence` value (opaque here, see `Playbook.UpdateStats`). -/
structure ManagerCtx where
  wilson : Nat → Nat → Rat
  embedFn : String → Except String (List Rat)
  autoReflect : Bool
  maxAge : Int
  minConfidence : Rat
  uuid : Nat → String
  now : Int

/-- Duration constants: one hour of `time.Duration` ticks (nanoseconds). -/
def hourNS : Int := 3600 * 1000000000

/-- `NewPlaybookManager` defaulting (manager.go): `MaxAge` defaults to 90 days and
`MinConfidence` to 0.3 when zero. -/
def applyConfigDefaults (ctx : ManagerCtx) : ManagerCtx :=
  let ctx := if ctx.maxAge = 0 then { ctx with maxAge := 90 * 24 * hourNS } else ctx
  if ctx.minConfidence = 0 then { ctx with minConfidence := 3/10 } else ctx

namespace Manager

/-- `generateEmbedding` (manager.go): embed the playbook's text content; on success
store the vector on the playbook. -/
def generateEmbedding (ctx : ManagerCtx) (pb : Playbook) : Except PBError Playbook :=
  let stepActions := pb.steps.map (·.action)
  let text := TextForPlaybook pb.name pb.description pb.tags stepActions
  match ctx.embedFn text with
  | .error e => .error (.embedFailed e)
  | .ok emb => .ok { pb with embedding := emb }

/-- The pure preamble of `Create` (manager.go): default id, slug and version, stamp
timestamps, recompute stats. -/
def prepareForCreate (ctx : ManagerCtx) (pb : Playbook) : Playbook :=
  let pb := if pb.id = "" then { pb with id := ctx.uuid 0 } else pb
  let pb := if pb.slug = "" then { pb with slug := slugify pb.name } else pb
  let pb := if pb.version = 0 then { pb with version := 1 } else pb
  let pb := { pb with createdAt := ctx.now, updatedAt := ctx.now }
  pb.UpdateStats ctx.wilson

/-- `Create` (manager.go): prepare, generate the embedding (a provider failure aborts
with the store untouched), then save and index.  The returned state reflects every
store/index call made before returning. -/
def Create (ctx : ManagerCtx) (st : MState) (pb : Playbook) :
    MState × Except PBError Playbook :=
  let pb := prepareForCreate ctx pb
  match generateEmbedding ctx pb with
  | .error e => (st, .error e)
  | .ok pb =>
    let st := st.savePlaybook pb
    let st := st.indexDoc pb
    (st, .ok pb)

/-- `Update` (manager.go): bump version, stamp `UpdatedAt`, recompute stats, re-embed
(failure aborts before any store write), save, re-index. -/
def Update (ctx : ManagerCtx) (st : MState) (pb : Playbook) :
    MState × Except PBError Playbook :=
  let pb := { pb with version := pb.version + 1, updatedAt := ctx.now }
  let pb := pb.UpdateStats ctx.wilson
  match generateEmbedding ctx pb with
  | .error e => (st, .error e)
  | .ok pb =>
    let st := st.savePlaybook pb
    let st := st.indexDoc pb
    (st, .ok pb)

/-- `Delete` (manager.go): remove from the store, then from the index.  Neither the
modelled store delete nor Bleve's delete fails on a missing id. -/
def Delete (ctx : ManagerCtx) (st : MState) (id : String) :
    MState × Except PBError Unit :=
  ((st.deletePlaybook id).removeDoc id, .ok ())

/-- `Get` (manager.go): delegate to the store. -/
def Get (st : MState) (id : String) : Except PBError Playbook :=
  st.getPlaybook id

/-- `ListExecutions` (manager.go): delegate to the store. -/
def ListExecutions (st : MState) (playbookID : String) (limit : Int) :
    List ExecutionRecord :=
  st.listExecutions playbookID limit

/-- The lesson-appending step of `ApplyReflection` (manager.go): one `Lesson` per
improvement string, learned from "reflection", confidence 0.5, id from `uuid.New()`. -/
def withReflectionLessons (ctx : ManagerCtx) (ref : Reflection) (pb : Playbook) :
    Playbook :=
  { pb with lessons := pb.lessons ++ ref.improvements.enum.map (fun ie =>
      ({ id := ctx.uuid ie.1, content := ie.2, learnedFrom := "reflection",
         learnedAt := ctx.now, applies := "general", confidence := 1/2 } : Lesson)) }

/-- `ApplyReflection` (manager.go): load the playbook, append one `Lesson` per
improvement string, then `Update` (which bumps version, re-embeds, re-indexes). -/
def ApplyReflection (ctx : ManagerCtx) (st : MState) (playbookID : String)
    (ref : Reflection) : MState × Except PBError Playbook :=
  match st.getPlaybook playbookID with
  | .error e => (st, .error e)
  | .ok pb => Update ctx st (withReflectionLessons ctx ref pb)

/-- The id-defaulting step of `RecordExecution` (manager.go): assign a fresh uuid when
the record has no id. -/
def effectiveRecord (ctx : ManagerCtx) (r : ExecutionRecord) : ExecutionRecord :=
  if r.id = "" then { r with id := ctx.uuid 0 } else r

/-- The counter bump of `RecordExecution` (manager.go): `partial` counts as a full
success for stats. -/
def applyOutcome (r : ExecutionRecord) (pb : Playbook) : Playbook :=
  match r.outcome with
  | .success => { pb with successCount := pb.successCount + 1 }
  | .failure => { pb with failureCount := pb.failureCount + 1 }
  | .partialSuccess => { pb with successCount := pb.successCount + 1 }

/-- `RecordExecution` (manager.go): save the execution record, load the playbook,
bump the outcome counter (`partial` counts as success), update `LastUsedAt`,
recompute stats, save and re-index; optionally auto-apply the reflection, whose
failure is logged and swallowed.  Note: the snapshot's implementation performs no
lifecycle evaluation and no version bump here. -/
def RecordExecution (ctx : ManagerCtx) (st : MState) (r : ExecutionRecord) :
    MState × Except PBError Unit :=
  let r := effectiveRecord ctx r
  let st := st.saveExecution r
  match st.getPlaybook r.playbookID with
  | .error e => (st, .error e)
  | .ok pb =>
    let pb := { applyOutcome r pb with lastUsedAt := r.completedAt }
    let pb := pb.UpdateStats ctx.wilson
    let st := st.savePlaybook pb
    let st := st.indexDoc pb
    if ctx.autoReflect then
      match r.reflection with
      | some ref =>
        if ref.shouldUpdate then
          match ApplyReflection ctx st r.playbookID ref with
          | (st2, .ok _) => (st2, .ok ())
          | (_, .error _) => (st, .ok ())
        else (st, .ok ())
      | none => (st, .ok ())
    else (st, .ok ())

/-- `PruneOptions` (manager.go). -/
structure PruneOptions where
  maxAge : Int
  minConfidence : Rat
  dryRun : Bool
deriving DecidableEq, Repr

/-- `Prune` (manager.go): default zero options from the manager config, list all
playbooks including archived ones, archive (or in dry-run mode merely report) every
non-archived playbook that is low-confidence-and-old, stale, or never-used-and-old
with low confidence.  Returns the new state and the archived ids. -/
def Prune (ctx : ManagerCtx) (st : MState) (opts : PruneOptions) :
    MState × List String :=
  let opts := if opts.maxAge = 0 then { opts with maxAge := ctx.maxAge } else opts
  let opts := if opts.minConfidence = 0 then { opts with minConfidence := ctx.minConfidence } else opts
  let playbooks := st.listPlaybooks
    { status := none, category := "", tags := [], limit := 0, includeArchived := true }
  let cutoff := ctx.now - opts.maxAge
  playbooks.foldl (fun acc pb =>
    if pb.status == Status.archived then acc
    else
      let lowConfOld := pb.confidence < opts.minConfidence && pb.updatedAt < cutoff
      let stale := pb.lastUsedAt != 0 && pb.lastUsedAt < cutoff
      let neverUsedOld := pb.lastUsedAt == 0 && pb.createdAt < cutoff &&
        pb.confidence < opts.minConfidence
      if lowConfOld || stale || neverUsedOld then
        let ids := acc.2 ++ [pb.id]
        if opts.dryRun then (acc.1, ids)
        else
          let pb := { pb with status := Status.archived, updatedAt := ctx.now }
          ((acc.1.savePlaybook pb).removeDoc pb.id, ids)
      else acc) (st, [])

end Manager

/-- `normalizeScore` (manager.go): min-max normalization to [0,1], defined as 1.0 when
all scores are equal. -/
def normalizeScore (score min max : Rat) : Rat :=
  if max = min then 1
  else (score - min) / (max - min)

/-- `hydrated[0].Score` seeded min over the batch (the loop in `Search`). -/
def batchMin : List SearchResult → Rat
  | [] => 0
  | r :: rest => rest.foldl (fun m x => if x.score < m then x.score else m) r.score

/-- `hydrated[0].Score` seeded max over the batch (the loop in `Search`). -/
def batchMax : List SearchResult → Rat
  | [] => 0
  | r :: rest => rest.foldl (fun m x => if m < x.score then x.score else m) r.score

/-- The clamped confidence weight of `Search` (manager.go): `w`, capped at 1. -/
def clampWeight (w : Rat) : Rat :=
  if 1 < w then 1 else w

/-- The per-result blended score of `Search` (manager.go):
`(1−w)·normalized + w·confidence` with the clamped weight. -/
def blendResult (w minS maxS : Rat) (r : SearchResult) : SearchResult :=
  { r with score := (1 - w) * normalizeScore r.score minS maxS + w * r.playbook.confidence }

/-- The composite-score block of `Search` (manager.go, lines 225–251): when
`ConfidenceWeight > 0` and the batch is non-empty, clamp the weight to 1, min-max
normalize the batch scores, blend each with the playbook's confidence and re-sort
descending by the blended score; otherwise return the hydrated batch unchanged.
Go sorts with `sort.Slice` (unstable, ties in unspecified order); the model sorts
with `mergeSort` on the same descending comparison. -/
def blendResults (confidenceWeight : Rat) (hydrated : List SearchResult) :
    List SearchResult :=
  if 0 < confidenceWeight ∧ hydrated ≠ [] then
    let w := clampWeight confidenceWeight
    let minS := batchMin hydrated
    let maxS := batchMax hydrated
    let blended := hydrated.map (blendResult w minS maxS)
    blended.mergeSort (fun a b => b.score ≤ a.score)
  else hydrated

namespace Manager

/-- The effective positive threshold of `SearchWithContext` (contrastive.go): a zero
`PositiveMinConfidence` defaults to 0.5. -/
def effectivePos (cq : ContrastiveQuery) : Rat :=
  if cq.positiveMinConfidence = 0 then DefaultPositiveMinConfidence
  else cq.positiveMinConfidence

/-- The effective negative threshold of `SearchWithContext` (contrastive.go): a zero
`NegativeMaxConfidence` defaults to 0.3. -/
def effectiveNeg (cq : ContrastiveQuery) : Rat :=
  if cq.negativeMaxConfidence = 0 then DefaultNegativeMaxConfidence
  else cq.negativeMaxConfidence

/-- The caller's original limit of `SearchWithContext` (contrastive.go): a zero limit
defaults to `DefaultSearchLimit`. -/
def originalLimit (cq : ContrastiveQuery) : Int :=
  if cq.searchQuery.limit = 0 then DefaultSearchLimit else cq.searchQuery.limit

/-- The query `SearchWithContext` hands to the underlying `Search`: the caller's query
at 3× the original limit with the score floor disabled. -/
def expandedQuery (cq : ContrastiveQuery) : SearchQuery :=
  { cq.searchQuery with limit := originalLimit cq * 3, minScore := 0 }

/-- One step of the classification loop of `SearchWithContext` (contrastive.go):
positive first, then negative, then (only on request) neutral. -/
def classify (pos neg : Rat) (includeNeutral : Bool) (cr : ContrastiveResults)
    (r : SearchResult) : ContrastiveResults :=
  if pos ≤ r.playbook.confidence then
    { cr with positive := cr.positive ++ [r] }
  else if r.playbook.confidence ≤ neg then
    { cr with negative := cr.negative ++ [r] }
  else if includeNeutral then
    { cr with neutral := cr.neutral ++ [r] }
  else cr

/-- The final per-group cap of `SearchWithContext` (contrastive.go): truncate to the
original limit only when the group is longer. -/
def capTo (limit : Int) (l : List SearchResult) : List SearchResult :=
  if limit < (l.length : Int) then l.take limit.toNat else l

/-- `SearchWithContext` (contrastive.go): default the thresholds, expand the limit and
drop the score floor, run the underlying search (passed in as `search`, the manager's
`Search`), classify every result strictly by its playbook's Wilson confidence, and cap
each group to the caller's original limit. -/
def SearchWithContext (search : SearchQuery → List SearchResult)
    (cq : ContrastiveQuery) : ContrastiveResults :=
  let pos := effectivePos cq
  let neg := effectiveNeg cq
  let lim := originalLimit cq
  let results := search (expandedQuery cq)
  let cr := results.foldl (classify pos neg cq.includeNeutral)
    { positive := [], negative := [], neutral := [], query := cq.searchQuery.text }
  { cr with
      positive := capTo lim cr.positive
      negative := capTo lim cr.negative
      neutral := capTo lim cr.neutral }

end Manager

/-! ## Test fixtures used by concrete evaluations -/

/-- A manager context with a no-op embedder (like `embed.Noop`), auto-reflect off and
unconfigured prune options, generic over the stored float64 Wilson value. -/
def testCtx (wilson : Nat → Nat → Rat) : ManagerCtx :=
  { wilson := wilson
    embedFn := fun _ => .ok []
    autoReflect := false
    maxAge := 0
    minConfidence := 0
    uuid := fun n => "uuid-" ++ toString n
    now := 1000 }

/-- The all-zero-counters test playbook, version 1, in the given status. -/
def basePlaybook (id : String) (status : Status) : Playbook :=
  { id := id, name := "Test", slug := "test", description := "", tags := [],
    category := "", steps := [], version := 1, successCount := 0, failureCount := 0,
    successRate := 0, confidence := 0, status := status, lessons := [], embedding := [],
    createdAt := 0, updatedAt := 0, lastUsedAt := 0, createdBy := "" }

/-- A minimal execution record for the given playbook and outcome. -/
def testRecord (id pid : String) (oc : Outcome) (t : Int) : ExecutionRecord :=
  { id := id, playbookID := pid, playbookVer := 1, agentID := "agent-1", startedAt := t,
    completedAt := t + 1, outcome := oc, stepResults := [], taskContext := "",
    reflection := none }

/-- Run `RecordExecution` for each outcome in order (with distinct record ids), stopping
at the first error — exactly what a sequence of caller invocations does. -/
def runRecords (ctx : ManagerCtx) (st : MState) (rs : List ExecutionRecord) :
    MState × Except PBError Unit :=
  rs.foldl (fun acc r =>
    match acc.2 with
    | .error _ => acc
    | .ok _ => Manager.RecordExecution ctx acc.1 r) (st, .ok ())

/-- The observable lifecycle data of a stored playbook: success count, failure count,
success rate and status. -/
def execView (st : MState) (id : String) : Option (Nat × Nat × Rat × Status) :=
  (Manager.Get st id).toOption.map (fun pb =>
    (pb.successCount, pb.failureCount, pb.successRate, pb.status))

/-! ## Association-list lemmas for the store -/

theorem lookup_cons_eq_ite {α : Type} (t : List (String × α)) (k a : String) (v : α) :
    ((k, v) :: t).lookup a = if a = k then some v else t.lookup a := by
  rw [List.lookup_cons]
  by_cases h : a = k
  · simp [h]
  · simp [beq_eq_false_iff_ne.mpr h, h]

theorem lookup_filter_key_none {α : Type} (l : List (String × α)) (id : String) :
    (l.filter (fun e => e.1 != id)).lookup id = none := by
  induction l with
  | nil => rfl
  | cons kv t ih =>
    obtain ⟨k, v⟩ := kv
    by_cases h : k = id
    · simpa [List.filter_cons, h] using ih
    · simp [List.filter_cons, h, lookup_cons_eq_ite, Ne.symm h, ih]

theorem filter_key_of_lookup_none {α : Type} (l : List (String × α)) (id : String)
    (h : l.lookup id = none) : l.filter (fun e => e.1 != id) = l := by
  induction l with
  | nil => rfl
  | cons kv t ih =>
    obtain ⟨k, v⟩ := kv
    rw [lookup_cons_eq_ite] at h
    by_cases hk : id = k
    · simp [hk] at h
    · simp only [hk, if_false] at h
      simp [List.filter_cons, Ne.symm hk, ih h]

theorem lookup_map_upd_self {α : Type} (t : List (String × α)) (k : String) (v : α)
    (h : (t.lookup k).isSome) :
    (t.map (fun e => if e.1 == k then (k, v) else e)).lookup k = some v := by
  induction t with
  | nil => simp [List.lookup] at h
  | cons kv t ih =>
    obtain ⟨k', v'⟩ := kv
    by_cases hk : k' = k
    · simp [List.map_cons, hk, lookup_cons_eq_ite]
    · rw [lookup_cons_eq_ite, if_neg (fun hh => hk hh.symm)] at h
      have hb : (k' == k) = false := beq_eq_false_iff_ne.mpr hk
      rw [List.map_cons]
      simp only [hb, Bool.false_eq_true, if_false]
      rw [lookup_cons_eq_ite, if_neg (fun hh => hk hh.symm)]
      exact ih h

theorem lookup_map_upd_ne {α : Type} (t : List (String × α)) (k : String) (v : α)
    (k' : String) (h : k' ≠ k) :
    (t.map (fun e => if e.1 == k then (k, v) else e)).lookup k' = t.lookup k' := by
  induction t with
  | nil => rfl
  | cons kv t ih =>
    obtain ⟨k₀, v₀⟩ := kv
    by_cases hk : k₀ = k
    · have hb : (k₀ == k) = true := beq_iff_eq.mpr hk
      rw [List.map_cons]
      simp only [hb, if_true]
      rw [lookup_cons_eq_ite, if_neg h, lookup_cons_eq_ite, if_neg (hk ▸ h)]
      exact ih
    · have hb : (k₀ == k) = false := beq_eq_false_iff_ne.mpr hk
      rw [List.map_cons]
      simp only [hb, Bool.false_eq_true, if_false]
      rw [lookup_cons_eq_ite, lookup_cons_eq_ite]
      by_cases hk' : k' = k₀
      · simp [hk']
      · rw [if_neg hk', if_neg hk']
        exact ih

theorem lookup_append_self {α : Type} (t : List (String × α)) (k : String) (v : α)
    (h : t.lookup k = none) : (t ++ [(k, v)]).lookup k = some v := by
  induction t with
  | nil => simp [lookup_cons_eq_ite]
  | cons kv t ih =>
    obtain ⟨k', v'⟩ := kv
    rw [lookup_cons_eq_ite] at h
    by_cases hk : k = k'
    · simp [hk] at h
    · rw [if_neg hk] at h
      rw [List.cons_append, lookup_cons_eq_ite, if_neg hk]
      exact ih h

theorem lookup_append_ne {α : Type} (t : List (String × α)) (k : String) (v : α)
    (k' : String) (h : k' ≠ k) : (t ++ [(k, v)]).lookup k' = t.lookup k' := by
  induction t with
  | nil => simp [lookup_cons_eq_ite, h]
  | cons kv t ih =>
    obtain ⟨k₀, v₀⟩ := kv
    rw [List.cons_append, lookup_cons_eq_ite, lookup_cons_eq_ite]
    by_cases hk' : k' = k₀
    · simp [hk']
    · rw [if_neg hk', if_neg hk']
      exact ih

theorem lookup_setKey_self {α : Type} (l : List (String × α)) (k : String) (v : α) :
    (setKey l k v).lookup k = some v := by
  unfold setKey
  by_cases h : (l.lookup k).isSome
  · simp only [h, if_true]
    exact lookup_map_upd_self l k v h
  · simp only [h, if_false]
    exact lookup_append_self l k v (Option.not_isSome_iff_eq_none.mp h)

theorem lookup_setKey_ne {α : Type} (l : List (String × α)) (k : String) (v : α)
    (k' : String) (h : k' ≠ k) : (setKey l k v).lookup k' = l.lookup k' := by
  unfold setKey
  by_cases hs : (l.lookup k).isSome
  · simp only [hs, if_true]
    exact lookup_map_upd_ne l k v k' h
  · simp only [hs, if_false]
    exact lookup_append_ne l k v k' h

/-! ## C7: deletion cascades -/

/-- C7: after a successful `Delete(id)`, `Get(id)` returns `NotFound` and
`ListExecutions(id, limit)` returns the empty sequence, for every limit — deletion
removes both the playbook document and its whole execution subdirectory (and the
delete itself reports success). -/
theorem delete_cascades_get_notFound_executions_empty (ctx : ManagerCtx) (st : MState)
    (id : String) (limit : Int) :
    Manager.Get (Manager.Delete ctx st id).1 id = .error (.notFound id) ∧
    Manager.ListExecutions (Manager.Delete ctx st id).1 id limit = [] ∧
    (Manager.Delete ctx st id).2 = .ok () := by
  refine ⟨?_, ?_, rfl⟩
  · show ((st.deletePlaybook id).removeDoc id).getPlaybook id = _
    unfold MState.getPlaybook MState.removeDoc MState.deletePlaybook
    simp [lookup_filter_key_none]
  · show ((st.deletePlaybook id).removeDoc id).listExecutions id limit = _
    unfold MState.listExecutions MState.removeDoc MState.deletePlaybook
    simp [lookup_filter_key_none]

/-! ## C10: deleting a missing playbook succeeds; delete is idempotent -/

/-- C10: `DeletePlaybook` on an id with no stored document reports success (never
`NotFound`) and leaves the store content untouched, so deleting the same id twice has
the same effect on stored content as deleting it once. -/
theorem delete_missing_ok_and_idempotent (ctx : ManagerCtx) (st : MState) (id : String) :
    (Manager.Delete ctx st id).2 = .ok () ∧
    ((st.playbooks.lookup id = none → (st.deletePlaybook id).playbooks = st.playbooks) ∧
     (st.executions.lookup id = none → (st.deletePlaybook id).executions = st.executions)) ∧
    (let st1 := (Manager.Delete ctx st id).1
     let st2 := (Manager.Delete ctx st1 id).1
     st2.playbooks = st1.playbooks ∧ st2.executions = st1.executions ∧
     st2.indexDocs = st1.indexDocs) := by
  refine ⟨rfl, ⟨?_, ?_⟩, ?_, ?_, ?_⟩
  · intro h
    exact filter_key_of_lookup_none _ _ h
  · intro h
    exact filter_key_of_lookup_none _ _ h
  · show ((((st.deletePlaybook id).removeDoc id).deletePlaybook id).removeDoc id).playbooks = _
    simp only [MState.removeDoc, MState.deletePlaybook]
    exact List.filter_eq_self.mpr (fun a ha => (List.mem_filter.mp ha).2)
  · show ((((st.deletePlaybook id).removeDoc id).deletePlaybook id).removeDoc id).executions = _
    simp only [MState.removeDoc, MState.deletePlaybook]
    exact List.filter_eq_self.mpr (fun a ha => (List.mem_filter.mp ha).2)
  · show ((((st.deletePlaybook id).removeDoc id).deletePlaybook id).removeDoc id).indexDocs = _
    simp only [MState.removeDoc, MState.deletePlaybook]
    exact List.filter_eq_self.mpr (fun a ha => (List.mem_filter.mp ha).2)

/-- Witness for C10 at a concrete store that has no document for `"ghost"`. -/
theorem delete_missing_ok_witness :
    (MState.empty.playbooks.lookup "ghost" = none) ∧
    (MState.empty.deletePlaybook "ghost").playbooks = MState.empty.playbooks := by
  exact ⟨rfl,
    ((delete_missing_ok_and_idempotent (testCtx (fun _ _ => 0)) MState.empty "ghost").2.1.1 rfl)⟩

/-! ## C9: zero-valued options are read as "unset" -/

/-- C9: a literal zero option is indistinguishable from an unset one.
`SearchWithContext` with a zero `PositiveMinConfidence`/`NegativeMaxConfidence` behaves
exactly as with the defaults 0.5/0.3, `Prune` with a zero `MaxAge`/`MinConfidence`
behaves exactly as with the manager's configured values, and `NewPlaybookManager`
itself turns zero config fields into 90 days / 0.3. -/
theorem zero_options_equal_defaults :
    (∀ (search : SearchQuery → List SearchResult) (cq : ContrastiveQuery),
      Manager.SearchWithContext search { cq with positiveMinConfidence := 0 } =
        Manager.SearchWithContext search
          { cq with positiveMinConfidence := DefaultPositiveMinConfidence } ∧
      Manager.SearchWithContext search { cq with negativeMaxConfidence := 0 } =
        Manager.SearchWithContext search
          { cq with negativeMaxConfidence := DefaultNegativeMaxConfidence }) ∧
    (∀ (ctx : ManagerCtx) (st : MState) (opts : Manager.PruneOptions),
      Manager.Prune ctx st { opts with maxAge := 0 } =
        Manager.Prune ctx st { opts with maxAge := ctx.maxAge } ∧
      Manager.Prune ctx st { opts with minConfidence := 0 } =
        Manager.Prune ctx st { opts with minConfidence := ctx.minConfidence }) ∧
    (∀ ctx : ManagerCtx,
      (applyConfigDefaults { ctx with maxAge := 0 }).maxAge = 90 * 24 * hourNS ∧
      (applyConfigDefaults { ctx with minConfidence := 0 }).minConfidence = 3/10) := by
  refine ⟨fun search cq => ⟨?_, ?_⟩, fun ctx st opts => ⟨?_, ?_⟩, fun ctx => ⟨?_, ?_⟩⟩
  · unfold Manager.SearchWithContext Manager.effectivePos Manager.effectiveNeg
      Manager.originalLimit Manager.expandedQuery
    norm_num [Manager.originalLimit, DefaultPositiveMinConfidence]
  · unfold Manager.SearchWithContext Manager.effectivePos Manager.effectiveNeg
      Manager.originalLimit Manager.expandedQuery
    norm_num [Manager.originalLimit, DefaultNegativeMaxConfidence]
  · unfold Manager.Prune
    by_cases h : ctx.maxAge = 0 <;> by_cases h2 : opts.minConfidence = 0 <;> simp [h, h2]
  · unfold Manager.Prune
    by_cases h : ctx.minConfidence = 0 <;> by_cases h2 : opts.maxAge = 0 <;> simp [h, h2]
  · unfold applyConfigDefaults
    by_cases h : ctx.minConfidence = 0 <;> simp [h]
  · unfold applyConfigDefaults
    by_cases h : ctx.maxAge = 0 <;> simp [h]

/-! ## C1/C2: what RecordExecution actually does to the lifecycle -/

/-- C1: the snapshot's `RecordExecution` performs no promotion.  Starting from a draft
playbook with no executions, three successful `RecordExecution` calls all succeed and
leave `successCount = 3`, `successRate = 1` and — although `ShouldPromote` is now true,
and the repository's own tests and README require promotion to `active` on the third
success — the stored status is still `draft`: `RecordExecution` never consults
`ShouldPromote`.  Generic over the stored float64 Wilson value. -/
theorem recordExecution_never_promotes (wilson : Nat → Nat → Rat) :
    (runRecords (testCtx wilson) (MState.empty.savePlaybook (basePlaybook "pb1" Status.draft))
        [testRecord "e1" "pb1" Outcome.success 0, testRecord "e2" "pb1" Outcome.success 0,
         testRecord "e3" "pb1" Outcome.success 0]).2 = .ok () ∧
    execView (runRecords (testCtx wilson)
        (MState.empty.savePlaybook (basePlaybook "pb1" Status.draft))
        [testRecord "e1" "pb1" Outcome.success 0, testRecord "e2" "pb1" Outcome.success 0,
         testRecord "e3" "pb1" Outcome.success 0]).1 "pb1" =
      some (3, 0, 1, Status.draft) ∧
    (Manager.Get (runRecords (testCtx wilson)
        (MState.empty.savePlaybook (basePlaybook "pb1" Status.draft))
        [testRecord "e1" "pb1" Outcome.success 0, testRecord "e2" "pb1" Outcome.success 0,
         testRecord "e3" "pb1" Outcome.success 0]).1 "pb1").toOption.map
      Playbook.ShouldPromote = some true ∧
    Status.draft ≠ Status.active := by
  refine ⟨?_, ?_, ?_, by decide⟩ <;>
  · simp +decide [runRecords, testCtx, basePlaybook, testRecord, execView, Manager.Get,
      Manager.RecordExecution, Manager.effectiveRecord, Manager.applyOutcome,
      MState.empty, MState.savePlaybook, MState.saveExecution,
      MState.getPlaybook, MState.indexDoc, setKey, Playbook.UpdateStats,
      Playbook.ShouldPromote, List.lookup, Except.toOption]

set_option maxHeartbeats 1600000 in
/-- C2: the snapshot's `RecordExecution` performs no deprecation.  Starting from an
active playbook, recording `[success, failure, failure, failure, failure]` leaves 5
executions at success rate 1/5 < 3/10 — `ShouldDeprecate` at the default threshold 0.3
is now true, and the repository's own tests require status `deprecated` after the
fifth record — yet the stored status is still `active`; after only the first four
records it is likewise `active` (there the claim agrees): `RecordExecution` never
consults `ShouldDeprecate`.  Generic over the stored float64 Wilson value. -/
theorem recordExecution_never_deprecates (wilson : Nat → Nat → Rat) :
    (runRecords (testCtx wilson) (MState.empty.savePlaybook (basePlaybook "pb2" Status.active))
        [testRecord "e1" "pb2" Outcome.success 0, testRecord "e2" "pb2" Outcome.failure 0,
         testRecord "e3" "pb2" Outcome.failure 0, testRecord "e4" "pb2" Outcome.failure 0]).2
      = .ok () ∧
    execView (runRecords (testCtx wilson)
        (MState.empty.savePlaybook (basePlaybook "pb2" Status.active))
        [testRecord "e1" "pb2" Outcome.success 0, testRecord "e2" "pb2" Outcome.failure 0,
         testRecord "e3" "pb2" Outcome.failure 0, testRecord "e4" "pb2" Outcome.failure 0]).1
      "pb2" = some (1, 3, 1/4, Status.active) ∧
    (runRecords (testCtx wilson) (MState.empty.savePlaybook (basePlaybook "pb2" Status.active))
        [testRecord "e1" "pb2" Outcome.success 0, testRecord "e2" "pb2" Outcome.failure 0,
         testRecord "e3" "pb2" Outcome.failure 0, testRecord "e4" "pb2" Outcome.failure 0,
         testRecord "e5" "pb2" Outcome.failure 0]).2 = .ok () ∧
    execView (runRecords (testCtx wilson)
        (MState.empty.savePlaybook (basePlaybook "pb2" Status.active))
        [testRecord "e1" "pb2" Outcome.success 0, testRecord "e2" "pb2" Outcome.failure 0,
         testRecord "e3" "pb2" Outcome.failure 0, testRecord "e4" "pb2" Outcome.failure 0,
         testRecord "e5" "pb2" Outcome.failure 0]).1 "pb2" =
      some (1, 4, 1/5, Status.active) ∧
    (Manager.Get (runRecords (testCtx wilson)
        (MState.empty.savePlaybook (basePlaybook "pb2" Status.active))
        [testRecord "e1" "pb2" Outcome.success 0, testRecord "e2" "pb2" Outcome.failure 0,
         testRecord "e3" "pb2" Outcome.failure 0, testRecord "e4" "pb2" Outcome.failure 0,
         testRecord "e5" "pb2" Outcome.failure 0]).1 "pb2").toOption.map
      (fun pb => pb.ShouldDeprecate (3/10)) = some true ∧
    Status.active ≠ Status.deprecated := by
  refine ⟨?_, ?_, ?_, ?_, ?_, by decide⟩ <;>
  · simp +decide [runRecords, testCtx, basePlaybook, testRecord, execView, Manager.Get,
      Manager.RecordExecution, Manager.effectiveRecord, Manager.applyOutcome,
      MState.empty, MState.savePlaybook, MState.saveExecution,
      MState.getPlaybook, MState.indexDoc, setKey, Playbook.UpdateStats,
      Playbook.ShouldDeprecate, List.lookup, Except.toOption]
    all_goals norm_num

/-! ## Store/view lemmas for the manager operations -/

theorem getPlaybook_savePlaybook (st : MState) (pb : Playbook) (id : String) :
    (st.savePlaybook pb).getPlaybook id =
      if id = pb.id then .ok pb else st.getPlaybook id := by
  unfold MState.savePlaybook MState.getPlaybook
  by_cases h : id = pb.id
  · simp [h, lookup_setKey_self]
  · simp [h, lookup_setKey_ne st.playbooks pb.id pb id h]

theorem getPlaybook_savePlaybook_self (st : MState) (pb : Playbook) :
    (st.savePlaybook pb).getPlaybook pb.id = .ok pb := by
  simp [getPlaybook_savePlaybook]

theorem getPlaybook_indexDoc (st : MState) (pb : Playbook) (id : String) :
    (st.indexDoc pb).getPlaybook id = st.getPlaybook id := rfl

theorem getPlaybook_saveExecution (st : MState) (r : ExecutionRecord) (id : String) :
    (st.saveExecution r).getPlaybook id = st.getPlaybook id := rfl

theorem generateEmbedding_ok (ctx : ManagerCtx) (pb pb' : Playbook)
    (h : Manager.generateEmbedding ctx pb = .ok pb') :
    pb'.version = pb.version ∧ pb'.id = pb.id ∧ pb'.lessons = pb.lessons := by
  unfold Manager.generateEmbedding at h
  cases hc : ctx.embedFn (TextForPlaybook pb.name pb.description pb.tags
      (pb.steps.map (·.action))) with
  | error e => simp [hc] at h
  | ok emb =>
    simp only [hc, Except.ok.injEq] at h
    subst h
    exact ⟨rfl, rfl, rfl⟩

theorem updateStats_version (wilson : Nat → Nat → Rat) (pb : Playbook) :
    (pb.UpdateStats wilson).version = pb.version := by
  unfold Playbook.UpdateStats
  by_cases h : pb.successCount + pb.failureCount = 0 <;> simp [h]

theorem prepareForCreate_version (ctx : ManagerCtx) (pb : Playbook) :
    (Manager.prepareForCreate ctx pb).version = if pb.version = 0 then 1 else pb.version := by
  unfold Manager.prepareForCreate
  by_cases hid : pb.id = "" <;> by_cases hslug : pb.slug = "" <;>
    by_cases hv : pb.version = 0 <;>
    simp [hid, hslug, hv, updateStats_version]

/-- `Update` bumps the version by exactly one and stores the result under the
playbook's id (when the embedding step succeeds; on failure nothing is written). -/
theorem update_version (ctx : ManagerCtx) (st : MState) (pb : Playbook) :
    match Manager.Update ctx st pb with
    | (st', .ok pb') => pb'.version = pb.version + 1 ∧ st'.getPlaybook pb'.id = .ok pb'
    | (_, .error _) => True := by
  unfold Manager.Update
  cases h : Manager.generateEmbedding ctx
      (({ pb with version := pb.version + 1, updatedAt := ctx.now }).UpdateStats ctx.wilson) with
  | error e => simp [h]
  | ok pbE =>
    obtain ⟨hv, hid, -⟩ := generateEmbedding_ok _ _ _ h
    simp only [h]
    refine ⟨?_, ?_⟩
    · rw [hv, updateStats_version]
    · rw [getPlaybook_indexDoc, getPlaybook_savePlaybook_self]

theorem effectiveRecord_playbookID (ctx : ManagerCtx) (r : ExecutionRecord) :
    (Manager.effectiveRecord ctx r).playbookID = r.playbookID := by
  unfold Manager.effectiveRecord
  split <;> rfl

theorem applyOutcome_version (r : ExecutionRecord) (pb : Playbook) :
    (Manager.applyOutcome r pb).version = pb.version := by
  unfold Manager.applyOutcome
  cases r.outcome <;> rfl

/-! ## C3: version behaviour of the mutations -/

/-- A manager context with the zero Wilson stub, used for closed evaluations. -/
def ctx0 : ManagerCtx := testCtx (fun _ _ => 0)

/-- C3 counterexample: the claim "Create leaves every input playbook with version 1 and
RecordExecution increases the stored version by exactly 1" is false on the code.
`Create` keeps a non-zero input version (here 2, not 1), and `RecordExecution` leaves
the stored playbook at its prior version (here 1, not 2). -/
theorem version_claim_counterexample :
    ((Manager.Create ctx0 MState.empty
        { basePlaybook "pbv" Status.draft with version := 2 }).2.toOption.map (·.version)
      = some 2 ∧ (2 : Int) ≠ 1) ∧
    ((Manager.RecordExecution ctx0
        (MState.empty.savePlaybook (basePlaybook "pb3" Status.draft))
        (testRecord "e1" "pb3" Outcome.success 0)).2 = .ok () ∧
     (Manager.Get (Manager.RecordExecution ctx0
        (MState.empty.savePlaybook (basePlaybook "pb3" Status.draft))
        (testRecord "e1" "pb3" Outcome.success 0)).1 "pb3").toOption.map (·.version)
      = some 1 ∧ (1 : Int) ≠ 1 + 1) := by
  refine ⟨⟨?_, by decide⟩, ?_, ?_, by decide⟩ <;>
  · simp +decide [ctx0, testCtx, basePlaybook, testRecord, Manager.Create,
      Manager.prepareForCreate, Manager.generateEmbedding, Manager.RecordExecution,
      Manager.effectiveRecord, Manager.applyOutcome,
      Manager.Get, MState.empty, MState.savePlaybook, MState.saveExecution,
      MState.getPlaybook, MState.indexDoc, setKey, Playbook.UpdateStats, List.lookup,
      Except.toOption, TextForPlaybook]

/-- C3 (amended): `Create` sets version to 1 only when the input version is 0 (a
non-zero input version is preserved); `Update` and `ApplyReflection` increase the
version by exactly 1 and store the bumped playbook; `RecordExecution` leaves the
stored playbook's version unchanged (shown here with auto-reflect off — with
auto-reflect on, a version bump can happen only through the `ApplyReflection` it
triggers, never through the recording itself). -/
theorem getPlaybook_savePlaybook_version (st : MState) (pbS : Playbook) (id : String)
    (pb : Playbook) (hv : pbS.version = pb.version) (h : st.getPlaybook id = .ok pb) :
    ((st.savePlaybook pbS).getPlaybook id).toOption.map (·.version) = some pb.version := by
  rw [getPlaybook_savePlaybook]
  by_cases hk : id = pbS.id
  · simp [hk, hv, Except.toOption]
  · simp [hk, h, Except.toOption]

theorem withReflectionLessons_version (ctx : ManagerCtx) (ref : Reflection)
    (pb : Playbook) : (Manager.withReflectionLessons ctx ref pb).version = pb.version := rfl

/-- C3 (amended): `Create` sets version to 1 only when the input version is 0 (a
non-zero input version is preserved); `Update` and `ApplyReflection` increase the
version by exactly 1 and store the bumped playbook; `RecordExecution` leaves the
stored playbook's version unchanged (shown here with auto-reflect off — with
auto-reflect on, a version bump can happen only through the `ApplyReflection` it
triggers, never through the recording itself). -/
theorem version_semantics (ctx : ManagerCtx) (st : MState) (pb : Playbook)
    (pid : String) (ref : Reflection) (r : ExecutionRecord) :
    (match Manager.Create ctx st pb with
     | (st', .ok pb') =>
         pb'.version = (if pb.version = 0 then 1 else pb.version) ∧
         st'.getPlaybook pb'.id = .ok pb'
     | (_, .error _) => True) ∧
    (match Manager.Update ctx st pb with
     | (st', .ok pb') => pb'.version = pb.version + 1 ∧ st'.getPlaybook pb'.id = .ok pb'
     | (_, .error _) => True) ∧
    (match Manager.ApplyReflection ctx st pid ref with
     | (st', .ok pb') =>
         ∃ old, st.getPlaybook pid = .ok old ∧ pb'.version = old.version + 1 ∧
           st'.getPlaybook pb'.id = .ok pb'
     | (_, .error _) => True) ∧
    (match Manager.RecordExecution { ctx with autoReflect := false } st r with
     | (st', .ok _) =>
         (st'.getPlaybook r.playbookID).toOption.map (·.version) =
           (st.getPlaybook r.playbookID).toOption.map (·.version)
     | (_, .error _) => True) := by
  refine ⟨?_, update_version ctx st pb, ?_, ?_⟩
  · unfold Manager.Create
    cases h : Manager.generateEmbedding ctx (Manager.prepareForCreate ctx pb) with
    | error e => simp [h]
    | ok pbE =>
      obtain ⟨hv, hid, -⟩ := generateEmbedding_ok _ _ _ h
      simp only [h]
      refine ⟨?_, ?_⟩
      · rw [hv, prepareForCreate_version]
      · rw [getPlaybook_indexDoc, getPlaybook_savePlaybook_self]
  · unfold Manager.ApplyReflection
    cases h : st.getPlaybook pid with
    | error e => simp [h]
    | ok old =>
      simp only [h]
      have hu := update_version ctx st (Manager.withReflectionLessons ctx ref old)
      revert hu
      cases hup : Manager.Update ctx st (Manager.withReflectionLessons ctx ref old) with
      | mk st' res =>
        cases res with
        | error e => intro _; simp
        | ok pb' =>
          intro hu
          simp only [] at hu
          exact ⟨old, rfl, by rw [hu.1, withReflectionLessons_version], hu.2⟩
  · unfold Manager.RecordExecution
    simp only [getPlaybook_saveExecution, effectiveRecord_playbookID]
    cases h : st.getPlaybook r.playbookID with
    | error e => simp [h]
    | ok pb =>
      simp only [h]
      simp only [show ({ ctx with autoReflect := false } : ManagerCtx).autoReflect = false
        from rfl, Bool.false_eq_true, if_false]
      rw [getPlaybook_indexDoc]
      rw [getPlaybook_savePlaybook_version _ _ _ pb
        (by simp [updateStats_version, applyOutcome_version])
        (by rw [getPlaybook_saveExecution]; exact h)]
      simp [Except.toOption]

/-! ## C6: a provider failure aborts Create with nothing persisted -/

/-- C6: if the embedding provider returns an error for the text `Create` embeds, then
`Create` returns that error and the store state — including the invocation trace — is
exactly the input state: neither `SavePlaybook` nor `Index` is ever invoked, so no
partially-embedded document can be stored. -/
theorem create_embed_error_nothing_persisted (ctx : ManagerCtx) (st : MState)
    (pb : Playbook) (msg : String)
    (h : ctx.embedFn (TextForPlaybook (Manager.prepareForCreate ctx pb).name
          (Manager.prepareForCreate ctx pb).description
          (Manager.prepareForCreate ctx pb).tags
          (((Manager.prepareForCreate ctx pb).steps).map (·.action))) = .error msg) :
    Manager.Create ctx st pb = (st, .error (.embedFailed msg)) ∧
    (Manager.Create ctx st pb).1.trace = st.trace := by
  have hcr : Manager.Create ctx st pb = (st, .error (.embedFailed msg)) := by
    unfold Manager.Create Manager.generateEmbedding
    simp [h]
  exact ⟨hcr, by rw [hcr]⟩

/-- Witness for C6: a provider that always fails makes `Create` fail with the wrapped
provider error and leaves the empty store empty. -/
theorem create_embed_error_witness :
    Manager.Create { testCtx (fun _ _ => 0) with embedFn := fun _ => .error "provider down" }
        MState.empty (basePlaybook "w" Status.draft) =
      (MState.empty, .error (.embedFailed "provider down")) :=
  (create_embed_error_nothing_persisted _ _ _ _ rfl).1

/-! ## C4: composite score blending in Search -/

theorem blendResult_one (minS maxS : Rat) (r : SearchResult) :
    blendResult (clampWeight 1) minS maxS r = { r with score := r.playbook.confidence } := by
  unfold blendResult
  have h1 : clampWeight 1 = 1 := by unfold clampWeight; norm_num
  rw [h1]
  have h2 : (1 - (1 : Rat)) * normalizeScore r.score minS maxS +
      1 * r.playbook.confidence = r.playbook.confidence := by ring
  rw [h2]

theorem blendResults_perm_sorted (hydrated : List SearchResult) (w : Rat) (hw : 0 < w) :
    (blendResults w hydrated).Perm
      (hydrated.map (blendResult (clampWeight w) (batchMin hydrated) (batchMax hydrated))) ∧
    (blendResults w hydrated).Pairwise (fun a b => b.score ≤ a.score) := by
  by_cases hne : hydrated = []
  · subst hne; simp [blendResults]
  · have hcond : 0 < w ∧ hydrated ≠ [] := ⟨hw, hne⟩
    unfold blendResults
    rw [if_pos hcond]
    constructor
    · exact List.mergeSort_perm _ _
    · have hs := @List.sorted_mergeSort SearchResult
        (fun a b => decide (b.score ≤ a.score))
        (fun a b c hab hbc => by
          simp only [decide_eq_true_eq] at hab hbc ⊢
          exact le_trans hbc hab)
        (fun a b => by
          simp only [Bool.or_eq_true, decide_eq_true_eq]
          exact le_total _ _)
        (hydrated.map (blendResult (clampWeight w) (batchMin hydrated) (batchMax hydrated)))
      exact hs.imp (fun h => by simpa using h)

/-- C4: the composite-score block of `Search`.  With weight 0 the hydrated batch is
returned unchanged (raw relevance order, raw scores).  With a positive weight, the
result is a permutation of the batch re-scored by `(1−w)·normalized + w·confidence`
(weight clamped at 1, min-max normalization with the all-equal case mapped to 1),
sorted descending by the blended score.  With weight 1 every final score is exactly
the playbook's confidence, so the order is purely descending confidence. -/
theorem composite_blend_spec (hydrated : List SearchResult) (w : Rat) :
    (w = 0 → blendResults w hydrated = hydrated) ∧
    (0 < w →
      (blendResults w hydrated).Perm
        (hydrated.map (blendResult (clampWeight w) (batchMin hydrated) (batchMax hydrated))) ∧
      (blendResults w hydrated).Pairwise (fun a b => b.score ≤ a.score)) ∧
    (w = 1 →
      (∀ x ∈ blendResults w hydrated, x.score = x.playbook.confidence) ∧
      (blendResults w hydrated).Pairwise
        (fun a b => b.playbook.confidence ≤ a.playbook.confidence)) := by
  refine ⟨?_, fun hw => blendResults_perm_sorted hydrated w hw, ?_⟩
  · intro hw; subst hw
    simp [blendResults]
  · intro hw; subst hw
    obtain ⟨hperm, hsorted⟩ := blendResults_perm_sorted hydrated 1 one_pos
    have hsc : ∀ x ∈ blendResults 1 hydrated, x.score = x.playbook.confidence := by
      intro x hx
      have hx' : x ∈ hydrated.map
          (blendResult (clampWeight 1) (batchMin hydrated) (batchMax hydrated)) :=
        hperm.subset hx
      obtain ⟨r, _, rfl⟩ := List.mem_map.mp hx'
      rw [blendResult_one]
    refine ⟨hsc, hsorted.imp_of_mem (fun ha hb hr => ?_)⟩
    rw [hsc _ ha, hsc _ hb] at hr
    exact hr

/-! ## C5: contrastive search -/

/-- The playbooks of the worked contrastive example: three matching playbooks whose
stored Wilson confidences are 0.60, 0.02 and 0.40 (the test corpus uses 9/1, 1/9 and
7/3 outcomes, whose Wilson scores are ≈ these values). -/
def examplePlaybook (id : String) (conf : Rat) : Playbook :=
  { basePlaybook id Status.active with confidence := conf }

def exampleResults : List SearchResult :=
  [ { playbook := examplePlaybook "proven" (6/10), score := 1 },
    { playbook := examplePlaybook "failed" (2/100), score := 9/10 },
    { playbook := examplePlaybook "mixed" (4/10), score := 8/10 } ]

/-- The worked example's query: default thresholds and limit, neutral not collected. -/
def exampleCq : ContrastiveQuery :=
  { searchQuery :=
      { text := "deployment", mode := "bm25", category := "", status := none,
        minScore := 0, limit := 0, embedding := [], confidenceWeight := 0 },
    positiveMinConfidence := 0, negativeMaxConfidence := 0, includeNeutral := false }

theorem capTo_nil (limit : Int) : Manager.capTo limit [] = [] := by
  unfold Manager.capTo
  split <;> simp

theorem mem_capTo {limit : Int} {l : List SearchResult} {x : SearchResult}
    (hx : x ∈ Manager.capTo limit l) : x ∈ l := by
  unfold Manager.capTo at hx
  split at hx
  · exact List.take_subset _ _ hx
  · exact hx

theorem classify_foldl (pos neg : Rat) (inc : Bool) (res : List SearchResult)
    (cr : ContrastiveResults) :
    res.foldl (Manager.classify pos neg inc) cr =
      { positive := cr.positive ++ res.filter (fun r => pos ≤ r.playbook.confidence),
        negative := cr.negative ++ res.filter (fun r =>
          !(decide (pos ≤ r.playbook.confidence)) && decide (r.playbook.confidence ≤ neg)),
        neutral := cr.neutral ++ (if inc then res.filter (fun r =>
          !(decide (pos ≤ r.playbook.confidence)) &&
          !(decide (r.playbook.confidence ≤ neg))) else []),
        query := cr.query } := by
  induction res generalizing cr with
  | nil => simp
  | cons r t ih =>
    rw [List.foldl_cons, ih]
    unfold Manager.classify
    by_cases h1 : pos ≤ r.playbook.confidence
    · simp [h1, List.filter_cons]
    · by_cases h2 : r.playbook.confidence ≤ neg
      · simp [h1, h2, List.filter_cons]
      · cases inc <;> simp [h1, h2, List.filter_cons]

/-- `SearchWithContext` in closed form: each group is the filter of the underlying
search's results by the effective confidence thresholds (positive first, then
negative, then neutral — collected only on request), truncated to the original
limit. -/
theorem searchWithContext_eq (search : SearchQuery → List SearchResult)
    (cq : ContrastiveQuery) :
    Manager.SearchWithContext search cq =
      { positive := Manager.capTo (Manager.originalLimit cq)
          ((search (Manager.expandedQuery cq)).filter
            (fun r => Manager.effectivePos cq ≤ r.playbook.confidence)),
        negative := Manager.capTo (Manager.originalLimit cq)
          ((search (Manager.expandedQuery cq)).filter
            (fun r => !(decide (Manager.effectivePos cq ≤ r.playbook.confidence)) &&
              decide (r.playbook.confidence ≤ Manager.effectiveNeg cq))),
        neutral := if cq.includeNeutral then Manager.capTo (Manager.originalLimit cq)
          ((search (Manager.expandedQuery cq)).filter
            (fun r => !(decide (Manager.effectivePos cq ≤ r.playbook.confidence)) &&
              !(decide (r.playbook.confidence ≤ Manager.effectiveNeg cq)))) else [],
        query := cq.searchQuery.text } := by
  unfold Manager.SearchWithContext
  simp only [classify_foldl]
  cases hinc : cq.includeNeutral <;> simp [capTo_nil]

/-- C5: `SearchWithContext` expands the caller's positive limit to 3× with the score
floor set to 0, classifies every returned result solely by its playbook's confidence
against the effective thresholds (defaults 0.5/0.3; neutral collected only when
requested), truncates each group to the caller's original limit, and the groups are
pairwise disjoint.  On the worked example (confidences 0.60/0.02/0.40, defaults) this
yields exactly 1 positive, 1 negative and 0 neutral — and 1 neutral once neutral
collection is enabled. -/
theorem searchWithContext_spec :
    (∀ (search : SearchQuery → List SearchResult) (cq : ContrastiveQuery),
      0 < cq.searchQuery.limit →
      ((Manager.expandedQuery cq).limit = 3 * cq.searchQuery.limit ∧
       (Manager.expandedQuery cq).minScore = 0) ∧
      (Manager.SearchWithContext search cq =
        { positive := Manager.capTo cq.searchQuery.limit
            ((search (Manager.expandedQuery cq)).filter
              (fun r => Manager.effectivePos cq ≤ r.playbook.confidence)),
          negative := Manager.capTo cq.searchQuery.limit
            ((search (Manager.expandedQuery cq)).filter
              (fun r => !(decide (Manager.effectivePos cq ≤ r.playbook.confidence)) &&
                decide (r.playbook.confidence ≤ Manager.effectiveNeg cq))),
          neutral := if cq.includeNeutral then Manager.capTo cq.searchQuery.limit
            ((search (Manager.expandedQuery cq)).filter
              (fun r => !(decide (Manager.effectivePos cq ≤ r.playbook.confidence)) &&
                !(decide (r.playbook.confidence ≤ Manager.effectiveNeg cq)))) else [],
          query := cq.searchQuery.text }) ∧
      (∀ x : SearchResult,
        (x ∈ (Manager.SearchWithContext search cq).positive →
          x ∉ (Manager.SearchWithContext search cq).negative ∧
          x ∉ (Manager.SearchWithContext search cq).neutral) ∧
        (x ∈ (Manager.SearchWithContext search cq).negative →
          x ∉ (Manager.SearchWithContext search cq).neutral))) ∧
    ((Manager.SearchWithContext (fun _ => exampleResults) exampleCq).positive.length = 1 ∧
     (Manager.SearchWithContext (fun _ => exampleResults) exampleCq).negative.length = 1 ∧
     (Manager.SearchWithContext (fun _ => exampleResults) exampleCq).neutral.length = 0 ∧
     (Manager.SearchWithContext (fun _ => exampleResults)
        { exampleCq with includeNeutral := true }).neutral.length = 1) := by
  constructor
  · intro search cq hlim
    have hne : cq.searchQuery.limit ≠ 0 := by omega
    have holim : Manager.originalLimit cq = cq.searchQuery.limit := by
      unfold Manager.originalLimit
      simp [hne]
    refine ⟨⟨?_, rfl⟩, ?_, ?_⟩
    · unfold Manager.expandedQuery
      simp [holim]
      ring
    · rw [searchWithContext_eq, holim]
    · intro x
      rw [searchWithContext_eq]
      constructor
      · intro hx
        have hpos := List.of_mem_filter (mem_capTo hx)
        simp only [decide_eq_true_eq] at hpos
        constructor
        · intro hneg
          have h2 := List.of_mem_filter (mem_capTo hneg)
          simp only [Bool.and_eq_true, Bool.not_eq_true', decide_eq_false_iff_not] at h2
          exact h2.1 hpos
        · intro hneu
          cases hinc : cq.includeNeutral with
          | false => rw [hinc] at hneu; simp at hneu
          | true =>
            rw [hinc] at hneu
            simp only [if_true] at hneu
            have h3 := List.of_mem_filter (mem_capTo hneu)
            simp only [Bool.and_eq_true, Bool.not_eq_true', decide_eq_false_iff_not] at h3
            exact h3.1 hpos
      · intro hx hneu
        have h2 := List.of_mem_filter (mem_capTo hx)
        simp only [Bool.and_eq_true, Bool.not_eq_true', decide_eq_false_iff_not,
          decide_eq_true_eq] at h2
        cases hinc : cq.includeNeutral with
        | false => rw [hinc] at hneu; simp at hneu
        | true =>
          rw [hinc] at hneu
          simp only [if_true] at hneu
          have h3 := List.of_mem_filter (mem_capTo hneu)
          simp only [Bool.and_eq_true, Bool.not_eq_true', decide_eq_false_iff_not] at h3
          exact h3.2 h2.2
  · refine ⟨?_, ?_, ?_, ?_⟩ <;>
    · rw [searchWithContext_eq]
      norm_num [exampleResults, exampleCq, examplePlaybook, basePlaybook,
        Manager.effectivePos, Manager.effectiveNeg, Manager.originalLimit,
        Manager.capTo, DefaultPositiveMinConfidence, DefaultNegativeMaxConfidence,
        DefaultSearchLimit, List.filter_cons]

/-- Witness for C4 at the example batch: weight 0 returns it unchanged; weight 1 sorts
purely by descending confidence. -/
theorem composite_blend_witness :
    blendResults 0 exampleResults = exampleResults ∧
    (blendResults 1 exampleResults).Pairwise
      (fun a b => b.playbook.confidence ≤ a.playbook.confidence) :=
  ⟨(composite_blend_spec exampleResults 0).1 rfl,
   ((composite_blend_spec exampleResults 1).2.2 rfl).2⟩

/-- Witness for C5 at the worked example with a positive caller limit. -/
theorem searchWithContext_witness :
    (Manager.expandedQuery { exampleCq with
        searchQuery := { exampleCq.searchQuery with limit := 5 } }).limit = 3 * 5 ∧
    (Manager.expandedQuery { exampleCq with
        searchQuery := { exampleCq.searchQuery with limit := 5 } }).minScore = 0 :=
  (searchWithContext_spec.1 (fun _ => exampleResults)
    { exampleCq with searchQuery := { exampleCq.searchQuery with limit := 5 } }
    (by norm_num [exampleCq])).1

/-! ## C8: Wilson confidence is strictly increasing in successes -/

theorem z95_pos : (0 : ℝ) < z95 := by norm_num [z95]

/-- Closed form of the Wilson lower bound: multiplying numerator and denominator by
`2n` turns the source formula into
`(2s + z² − z·√(z² + 4sf/n)) / (2(n + z²))`. -/
theorem wilson_closed_form (s f : ℕ) (hn : s + f ≠ 0) :
    WilsonConfidence s f =
      (2*(s:ℝ) + z95^2 - z95 * Real.sqrt (z95^2 + 4*(s:ℝ)*(f:ℝ)/((s:ℝ)+(f:ℝ)))) /
        (2*(((s:ℝ)+(f:ℝ)) + z95^2)) := by
  have hnn : (0:ℝ) < (s:ℝ)+(f:ℝ) := by
    have : 0 < s + f := Nat.pos_of_ne_zero hn
    exact_mod_cast this
  have hnR : ((s:ℝ)+(f:ℝ)) ≠ 0 := ne_of_gt hnn
  have hz := z95_pos
  simp only [WilsonConfidence]
  rw [if_neg hnR]
  have hA : (0:ℝ) ≤ (s:ℝ)/((s:ℝ)+(f:ℝ)) * (1 - (s:ℝ)/((s:ℝ)+(f:ℝ))) / ((s:ℝ)+(f:ℝ)) +
      z95 * z95 / (4*(((s:ℝ)+(f:ℝ)) * ((s:ℝ)+(f:ℝ)))) := by
    have hp1 : (s:ℝ)/((s:ℝ)+(f:ℝ)) ≤ 1 := by
      rw [div_le_one hnn]
      have : (0:ℝ) ≤ (f:ℝ) := Nat.cast_nonneg f
      linarith
    have hp0 : (0:ℝ) ≤ (s:ℝ)/((s:ℝ)+(f:ℝ)) := by positivity
    have h1 : (0:ℝ) ≤ (s:ℝ)/((s:ℝ)+(f:ℝ)) * (1 - (s:ℝ)/((s:ℝ)+(f:ℝ))) / ((s:ℝ)+(f:ℝ)) := by
      apply div_nonneg _ hnn.le
      exact mul_nonneg hp0 (by linarith)
    have h2 : (0:ℝ) ≤ z95 * z95 / (4*(((s:ℝ)+(f:ℝ)) * ((s:ℝ)+(f:ℝ)))) := by positivity
    linarith
  have hD : Real.sqrt (z95^2 + 4*(s:ℝ)*(f:ℝ)/((s:ℝ)+(f:ℝ))) =
      (2*((s:ℝ)+(f:ℝ))) *
        Real.sqrt ((s:ℝ)/((s:ℝ)+(f:ℝ)) * (1 - (s:ℝ)/((s:ℝ)+(f:ℝ))) / ((s:ℝ)+(f:ℝ)) +
          z95 * z95 / (4*(((s:ℝ)+(f:ℝ)) * ((s:ℝ)+(f:ℝ))))) := by
    rw [show z95^2 + 4*(s:ℝ)*(f:ℝ)/((s:ℝ)+(f:ℝ)) =
        (2*((s:ℝ)+(f:ℝ)))^2 *
          ((s:ℝ)/((s:ℝ)+(f:ℝ)) * (1 - (s:ℝ)/((s:ℝ)+(f:ℝ))) / ((s:ℝ)+(f:ℝ)) +
            z95 * z95 / (4*(((s:ℝ)+(f:ℝ)) * ((s:ℝ)+(f:ℝ))))) by
      field_simp
      ring]
    rw [Real.sqrt_mul (by positivity) _, Real.sqrt_sq (by positivity)]
  rw [hD]
  have ha : (0:ℝ) ≤ Real.sqrt ((s:ℝ)/((s:ℝ)+(f:ℝ)) * (1 - (s:ℝ)/((s:ℝ)+(f:ℝ))) /
      ((s:ℝ)+(f:ℝ)) + z95 * z95 / (4*(((s:ℝ)+(f:ℝ)) * ((s:ℝ)+(f:ℝ))))) :=
    Real.sqrt_nonneg _
  have hden : (1:ℝ) + z95*z95/((s:ℝ)+(f:ℝ)) ≠ 0 := by positivity
  have hden2 : (2:ℝ)*(((s:ℝ)+(f:ℝ)) + z95^2) ≠ 0 := by positivity
  field_simp
  ring

set_option maxHeartbeats 1000000 in
/-- The core real inequality behind the monotonicity: one more success strictly
raises the Wilson lower bound, for any positive z and any nonneg counts with at
least one execution. -/
theorem wilson_core (z s f : ℝ) (hz : 0 < z) (hs : 0 ≤ s) (hf : 0 ≤ f)
    (hn : 1 ≤ s + f) :
    (2*s + z^2 - z * Real.sqrt (z^2 + 4*s*f/(s+f))) / (2*((s+f) + z^2)) <
      (2*(s+1) + z^2 - z * Real.sqrt (z^2 + 4*(s+1)*f/((s+f)+1))) /
        (2*(((s+f)+1) + z^2)) := by
  have hn0 : (0:ℝ) < s + f := by linarith
  have hn1 : (0:ℝ) < s + f + 1 := by linarith
  have hq₁0 : (0:ℝ) ≤ z^2 + 4*s*f/(s+f) := by positivity
  have hq₂0 : (0:ℝ) ≤ z^2 + 4*(s+1)*f/((s+f)+1) := by positivity
  set d₁ := Real.sqrt (z^2 + 4*s*f/(s+f)) with hd₁def
  set d₂ := Real.sqrt (z^2 + 4*(s+1)*f/((s+f)+1)) with hd₂def
  have hd₁sq : d₁^2 = z^2 + 4*s*f/(s+f) := Real.sq_sqrt hq₁0
  have hd₂sq : d₂^2 = z^2 + 4*(s+1)*f/((s+f)+1) := Real.sq_sqrt hq₂0
  have hd₁0 : 0 ≤ d₁ := Real.sqrt_nonneg _
  have hd₂0 : 0 ≤ d₂ := Real.sqrt_nonneg _
  have hd₁z : z ≤ d₁ := by
    rw [hd₁def]
    have h1 : z^2 ≤ z^2 + 4*s*f/(s+f) := by
      have : (0:ℝ) ≤ 4*s*f/(s+f) := by positivity
      linarith
    calc z = Real.sqrt (z^2) := (Real.sqrt_sq hz.le).symm
    _ ≤ Real.sqrt (z^2 + 4*s*f/(s+f)) := Real.sqrt_le_sqrt h1
  have hd₂z : z ≤ d₂ := by
    rw [hd₂def]
    have h1 : z^2 ≤ z^2 + 4*(s+1)*f/((s+f)+1) := by
      have : (0:ℝ) ≤ 4*(s+1)*f/((s+f)+1) := by positivity
      linarith
    calc z = Real.sqrt (z^2) := (Real.sqrt_sq hz.le).symm
    _ ≤ Real.sqrt (z^2 + 4*(s+1)*f/((s+f)+1)) := Real.sqrt_le_sqrt h1
  have hq21 : (z^2 + 4*(s+1)*f/((s+f)+1)) - (z^2 + 4*s*f/(s+f)) =
      4*f^2/((s+f)*((s+f)+1)) := by
    field_simp
    ring
  have hq21pos : (0:ℝ) ≤ (z^2 + 4*(s+1)*f/((s+f)+1)) - (z^2 + 4*s*f/(s+f)) := by
    rw [hq21]
    positivity
  have hdiff : (d₂ - d₁) * (d₁ + d₂) =
      (z^2 + 4*(s+1)*f/((s+f)+1)) - (z^2 + 4*s*f/(s+f)) := by
    have h := hd₁sq
    have h' := hd₂sq
    nlinarith [h, h']
  -- (d₂ − d₁)·2z ≤ q₂ − q₁, since (d₂ − d₁)(d₁ + d₂) = q₂ − q₁ and d₁ + d₂ ≥ 2z
  have hstep1 : (d₂ - d₁) * (2*z) ≤ 4*f^2/((s+f)*((s+f)+1)) := by
    rw [← hq21]
    rcases le_or_lt d₁ d₂ with hle | hlt
    · calc (d₂ - d₁) * (2*z) ≤ (d₂ - d₁) * (d₁ + d₂) := by nlinarith
      _ = _ := hdiff
    · have : (d₂ - d₁) * (2*z) ≤ 0 := by nlinarith
      linarith
  have hfn : f ≤ s + f := by linarith
  -- f²(n + z²) < (f + z²)·n(n+1)
  have e1a : f*f ≤ f*(s+f) := mul_le_mul_of_nonneg_left hfn hf
  have t1 : (f*f)*(s+f) ≤ (f*(s+f))*(s+f) := mul_le_mul_of_nonneg_right e1a hn0.le
  have t2 : f*((s+f)*(s+f)) ≤ f*((s+f)*((s+f)+1)) := by
    have h' : (s+f)*(s+f) ≤ (s+f)*((s+f)+1) := by nlinarith [hn0]
    exact mul_le_mul_of_nonneg_left h' hf
  have t3 : f^2*z^2 ≤ (s+f)^2*z^2 := by
    have h' : f^2 ≤ (s+f)^2 := by nlinarith [hfn, hf]
    exact mul_le_mul_of_nonneg_right h' (sq_nonneg z)
  have t4 : (s+f)^2*z^2 < ((s+f)*((s+f)+1))*z^2 := by
    have h' : (s+f)^2 < (s+f)*((s+f)+1) := by nlinarith [hn0]
    exact mul_lt_mul_of_pos_right h' (by positivity)
  have hpoly : f^2 * ((s+f) + z^2) < (f + z^2) * ((s+f) * ((s+f)+1)) := by
    nlinarith [t1, t2, t3, t4]
  -- ((s+f)+z²)·(d₂−d₁)·2z < 4(f+z²)
  have h4 : ((s+f)+z^2) * (4*f^2/((s+f)*((s+f)+1))) < 4*(f + z^2) := by
    have hprod : (0:ℝ) < (s+f)*((s+f)+1) := by positivity
    rw [← mul_div_assoc, div_lt_iff hprod]
    nlinarith [hpoly]
  have hchain : ((s+f)+z^2) * ((d₂-d₁) * (2*z)) < 4*(f + z^2) := by
    have hpos : (0:ℝ) ≤ (s+f)+z^2 := by positivity
    calc ((s+f)+z^2) * ((d₂-d₁) * (2*z)) ≤
        ((s+f)+z^2) * (4*f^2/((s+f)*((s+f)+1))) :=
          mul_le_mul_of_nonneg_left hstep1 hpos
    _ < 4*(f + z^2) := h4
  -- the key bound
  have h1 : d₂*((s+f)+z^2) - d₁*(((s+f)+1)+z^2) ≤ ((s+f)+z^2)*(d₂-d₁) - z := by
    nlinarith [hd₁z]
  have key : z * (d₂*((s+f)+z^2) - d₁*(((s+f)+1)+z^2)) < 2*f + z^2 := by
    have hz1 : z * (d₂*((s+f)+z^2) - d₁*(((s+f)+1)+z^2)) ≤
        z * (((s+f)+z^2)*(d₂-d₁) - z) := mul_le_mul_of_nonneg_left h1 hz.le
    nlinarith [hz1, hchain]
  -- assemble
  rw [div_lt_div_iff (by positivity) (by positivity)]
  have hBA : (2*(s+1) + z^2 - z*d₂) * (2*((s+f) + z^2)) -
      (2*s + z^2 - z*d₁) * (2*((((s+f))+1) + z^2)) =
      2*((2*f + z^2) - z*(d₂*((s+f)+z^2) - d₁*(((s+f)+1)+z^2))) := by
    ring
  nlinarith [key, hBA]

/-- One more success strictly raises `WilsonConfidence`, at every count. -/
theorem wilson_step (s f : ℕ) : WilsonConfidence s f < WilsonConfidence (s+1) f := by
  by_cases h0 : s + f = 0
  · have hs : s = 0 := by omega
    have hf : f = 0 := by omega
    subst hs; subst hf
    have hW0 : WilsonConfidence 0 0 = 0 := by simp [WilsonConfidence]
    rw [hW0, wilson_closed_form 1 0 (by norm_num)]
    have hz := z95_pos
    have hsq : Real.sqrt (z95^2 + 4*((1:ℕ):ℝ)*((0:ℕ):ℝ)/(((1:ℕ):ℝ)+((0:ℕ):ℝ))) = z95 := by
      norm_num
      exact Real.sqrt_sq hz.le
    rw [hsq]
    have hnum : 2*((1:ℕ):ℝ) + z95^2 - z95*z95 = 2 := by push_cast; ring
    rw [hnum]
    positivity
  · have hcast : WilsonConfidence (s+1) f =
        (2*((s:ℝ)+1) + z95^2 -
          z95 * Real.sqrt (z95^2 + 4*((s:ℝ)+1)*(f:ℝ)/(((s:ℝ)+(f:ℝ))+1))) /
          (2*((((s:ℝ)+(f:ℝ))+1) + z95^2)) := by
      rw [wilson_closed_form (s+1) f (by omega)]
      push_cast
      ring_nf
    rw [wilson_closed_form s f h0, hcast]
    have hs0 : (0:ℝ) ≤ (s:ℝ) := Nat.cast_nonneg s
    have hf0 : (0:ℝ) ≤ (f:ℝ) := Nat.cast_nonneg f
    have hn1 : (1:ℝ) ≤ (s:ℝ)+(f:ℝ) := by
      have : 1 ≤ s + f := Nat.one_le_iff_ne_zero.mpr h0
      exact_mod_cast this
    exact wilson_core z95 (s:ℝ) (f:ℝ) z95_pos hs0 hf0 hn1

/-- C8: `WilsonConfidence` is strictly increasing in successes at equal failures; in
particular `WilsonConfidence(10,5) > WilsonConfidence(5,5)`. -/
theorem wilsonConfidence_strictMono_in_successes :
    (∀ (f s₁ s₂ : ℕ), s₁ < s₂ → WilsonConfidence s₁ f < WilsonConfidence s₂ f) ∧
    WilsonConfidence 10 5 > WilsonConfidence 5 5 := by
  have hmono : ∀ (f : ℕ), StrictMono (fun s => WilsonConfidence s f) :=
    fun f => strictMono_nat_of_lt_succ (fun s => wilson_step s f)
  exact ⟨fun f s₁ s₂ h => hmono f h, hmono 5 (by norm_num)⟩

/-- Witness for C8 at the spec's concrete counts. -/
theorem wilsonConfidence_strictMono_witness :
    WilsonConfidence 5 5 < WilsonConfidence 10 5 :=
  wilsonConfidence_strictMono_in_successes.1 5 5 10 (by norm_num)

end Playbookd
